import Mathlib

/-!
Verification of the raycasting renderer (`src/ts/raycaster.ts`).

The rendering core is embedded shallowly over the rational numbers:
TypeScript `number` values are modelled as `ℚ`.  The only IEEE artefact the
algorithm relies on is that `deltaDistance = |1 / direction.c|` is `Infinity`
when a direction component is zero, so that the DDA never advances along that
axis; the embedding carries an explicit `infX`/`infY` flag for that case
instead of an infinite value (a side distance is infinite exactly when its
axis flag is set, and an infinite side distance is never the strictly smaller
one, so that axis is never selected).

External collaborator modules of the repository (cell classification,
level lookup, sprite flags) are not part of the rendering source; they are
modelled from the specification where noted.
-/

set_option autoImplicit false

namespace RC

/-- Modelled from the spec: 2D vector `{x, y}`, a real-valued pair
(`src/ts/interfaces/vector.ts` is an external interface). -/
structure Vec where
  x : ℚ
  y : ℚ
  deriving DecidableEq, Repr

/-- Modelled from the spec: vector addition from the vector utilities
(`vu.add`), "2D vector arithmetic (add, scale) used throughout; trivial". -/
def vadd (a b : Vec) : Vec := ⟨a.x + b.x, a.y + b.y⟩

/-- Modelled from the spec: scalar multiple of a vector (`vu.scale`). -/
def vscale (v : Vec) (s : ℚ) : Vec := ⟨v.x * s, v.y * s⟩

/-- Modelled from the spec: entity (camera/player) state — `position`,
`direction` and camera-plane vector `camera`
(`src/ts/interfaces/entity.ts` is an external interface). -/
structure Entity where
  position : Vec
  direction : Vec
  camera : Vec
  deriving DecidableEq, Repr

/-- The wall faces of `Face` in `src/ts/enums.ts` (external module) that the
ray caster can report; modelled from the spec's north/south/east/west faces. -/
inductive Face where
  | north
  | south
  | east
  | west
  deriving DecidableEq, Repr

/-- Modelled from the spec: the tagged cell variants — open floor, simple or
textured wall, thin wall, door (carrying its `percent` value 0–100) and switch
(`src/ts/interfaces/cell.ts` and `src/ts/utils/cell-utils.ts` are external).
Texture payloads are omitted: textures are an external collaborator and no
verified property mentions them. -/
inductive Cell where
  | floor
  | wall
  | thinWall
  | door (percent : ℚ)
  | switchCell
  deriving DecidableEq, Repr

/-- Modelled from the spec: `isSolid` classification — every variant except
open floor is solid. -/
def isSolid : Cell → Bool
  | .floor => false
  | _ => true

/-- Modelled from the spec: `isDoor` classification. -/
def isDoor : Cell → Bool
  | .door _ => true
  | _ => false

/-- Modelled from the spec: `isThin` — cells occupying only the
half-thickness center plane.  Doors are thin: the door branch of `castRay`
unconditionally reverts the half-cell thin-wall adjustment
(`castCell.x -= castStep.x * 0.5`) when the ray passes through the gap, which
is only coherent if the adjustment was applied to the door cell. -/
def isThin : Cell → Bool
  | .thinWall => true
  | .door _ => true
  | _ => false

/-- The `percent` payload read by `castRay` via `(cell as DoorCell).percent`;
only ever read under an `isDoor` guard. -/
def doorPercent : Cell → ℚ
  | .door p => p
  | _ => 0

/-- Modelled from the spec: a `Level` carries a fixed 2D grid of cells
(row-major, indexed `data[y][x]`) and the sprite list
(`src/ts/interfaces/level.ts` is an external interface; fallback texture ids
and metadata are omitted as texture handling is out of scope). -/
structure Sprite where
  position : Vec
  scale : ℚ
  alignTop : Bool
  alignBottom : Bool
  active : Bool
  distance : ℚ
  deriving DecidableEq, Repr

structure Level where
  data : List (List Cell)
  sprites : List Sprite
  deriving DecidableEq, Repr

/-- Modelled from the spec: `getCell(level, x, y)` is a bounds-checked grid
lookup returning "no cell" outside the grid.  The caller passes arbitrary
numbers; a JavaScript array indexed by a non-integer or negative number
yields `undefined`, so only integral in-range coordinates resolve. -/
def getCell (l : Level) (x y : ℚ) : Option Cell :=
  if x.den = 1 ∧ y.den = 1 ∧ 0 ≤ x.num ∧ 0 ≤ y.num then
    match l.data.get? y.num.toNat with
    | some row => row.get? x.num.toNat
    | none => none
  else none

/-- `CastResult` (`src/ts/interfaces/raycaster.ts`): the spread `...castCell`
contributes the traversal coordinates `x`, `y`, followed by the hit cell,
face, wall fraction and perpendicular distance. -/
structure CastResult where
  x : ℚ
  y : ℚ
  cell : Cell
  face : Face
  wall : ℚ
  distance : ℚ
  deriving DecidableEq, Repr

/-- Face recorded when the DDA advances on the X axis:
`castStep.x < 0 ? Face.EAST : Face.WEST`. -/
def sideX (stepX : ℚ) : Face := if stepX < 0 then Face.east else Face.west

/-- Face recorded when the DDA advances on the Y axis:
`castStep.y > 0 ? Face.NORTH : Face.SOUTH`. -/
def sideY (stepY : ℚ) : Face := if stepY > 0 then Face.north else Face.south

/-- The raw wall fraction for an X-axis hit, from `castRay`:
`wall = entity.position.y + ((castCell.x - entity.position.x + (1 - castStep.x) / 2) / direction.x) * direction.y`
followed by `wall -= Math.floor(wall)`. -/
def wallFracX (e : Entity) (dir : Vec) (stepX cx : ℚ) : ℚ :=
  let w0 := e.position.y + ((cx - e.position.x + (1 - stepX) / 2) / dir.x) * dir.y
  w0 - ⌊w0⌋

/-- The perpendicular distance for an X-axis hit, from `castRay`:
`distance = Math.abs((castCell.x - entity.position.x + (1 - castStep.x) / 2) / direction.x)`. -/
def perpDistX (e : Entity) (dir : Vec) (stepX cx : ℚ) : ℚ :=
  |(cx - e.position.x + (1 - stepX) / 2) / dir.x|

/-- The raw wall fraction for a Y-axis hit (symmetric to `wallFracX`). -/
def wallFracY (e : Entity) (dir : Vec) (stepY cy : ℚ) : ℚ :=
  let w0 := e.position.x + ((cy - e.position.y + (1 - stepY) / 2) / dir.y) * dir.x
  w0 - ⌊w0⌋

/-- The perpendicular distance for a Y-axis hit (symmetric to `perpDistX`). -/
def perpDistY (e : Entity) (dir : Vec) (stepY cy : ℚ) : ℚ :=
  |(cy - e.position.y + (1 - stepY) / 2) / dir.y|

/-- Processing of a solid cell entered by an X-axis DDA step: the
`case Face.EAST / Face.WEST` block of `castRay`.  `Sum.inl cx` means the
loop continues (`continue`) with the traversal X-coordinate set to `cx`;
`Sum.inr r` means `castRay` returns `r`.

The thin-wall center test compares
`castDistance.x - deltaDistanceX * 0.5 > castDistance.y`; when
`direction.y = 0` (`infY`), `castDistance.y` is `Infinity` and the finite
left-hand side never exceeds it, so the test fails (`infX` is always false
on this branch since an infinite X side distance is never the smaller one). -/
def solidX (e : Entity) (dir : Vec) (deltaX : ℚ) (infX infY : Bool)
    (stepX : ℚ) (cell : Cell) (cx cy distX distY : ℚ) : Sum ℚ CastResult :=
  if isThin cell ∧ infX = false ∧ infY = false ∧ distX - deltaX * (1 / 2) > distY then
    Sum.inl cx
  else
    let cx' := if isThin cell then cx + stepX * (1 / 2) else cx
    let distance := perpDistX e dir stepX cx'
    let w := wallFracX e dir stepX cx'
    if isDoor cell then
      let doorOpenPercent := (1 / 100) * doorPercent cell
      if w > doorOpenPercent then
        Sum.inl (cx' - stepX * (1 / 2))
      else
        Sum.inr ⟨cx', cy, cell, sideX stepX, doorOpenPercent - w, distance⟩
    else
      Sum.inr ⟨cx', cy, cell, sideX stepX, w, distance⟩

/-- Processing of a solid cell entered by a Y-axis DDA step: the
`case Face.NORTH / Face.SOUTH` block of `castRay` (symmetric to `solidX`). -/
def solidY (e : Entity) (dir : Vec) (deltaY : ℚ) (infX infY : Bool)
    (stepY : ℚ) (cell : Cell) (cx cy distX distY : ℚ) : Sum ℚ CastResult :=
  if isThin cell ∧ infX = false ∧ infY = false ∧ distY - deltaY * (1 / 2) > distX then
    Sum.inl cy
  else
    let cy' := if isThin cell then cy + stepY * (1 / 2) else cy
    let distance := perpDistY e dir stepY cy'
    let w := wallFracY e dir stepY cy'
    if isDoor cell then
      let doorOpenPercent := (1 / 100) * doorPercent cell
      if w > doorOpenPercent then
        Sum.inl (cy' - stepY * (1 / 2))
      else
        Sum.inr ⟨cx, cy', cell, sideY stepY, doorOpenPercent - w, distance⟩
    else
      Sum.inr ⟨cx, cy', cell, sideY stepY, w, distance⟩

/-- Outcome of one iteration of the DDA while-loop of `castRay`. -/
inductive StepOut where
  | next (cellX cellY distX distY : ℚ)
  | hit (r : CastResult)
  | outside
  deriving DecidableEq, Repr

/-- The branch condition `castDistance.x < castDistance.y` of the DDA
advance, on the extended side distances: an infinite side distance (zero
direction component) is never the strictly smaller one. -/
def stepGoX (infX infY : Bool) (distX distY : ℚ) : Bool :=
  if infX then false else if infY then true else decide (distX < distY)

/-- One iteration of the DDA while-loop of `castRay`: advance along the axis
with the smaller accumulated side distance, look up the entered cell
(`StepOut.outside` on a missing cell, the `break`), and process a solid
cell via `solidX`/`solidY`. -/
def castStep (e : Entity) (l : Level) (dir : Vec) (deltaX deltaY : ℚ)
    (infX infY : Bool) (stepX stepY : ℚ)
    (cellX cellY distX distY : ℚ) : StepOut :=
  if stepGoX infX infY distX distY then
    let distX' := distX + deltaX
    let cellX' := cellX + stepX
    match getCell l cellX' cellY with
    | none => .outside
    | some cell =>
      if isSolid cell then
        match solidX e dir deltaX infX infY stepX cell cellX' cellY distX' distY with
        | .inl cx => .next cx cellY distX' distY
        | .inr r => .hit r
      else .next cellX' cellY distX' distY
  else
    let distY' := distY + deltaY
    let cellY' := cellY + stepY
    match getCell l cellX cellY' with
    | none => .outside
    | some cell =>
      if isSolid cell then
        match solidY e dir deltaY infX infY stepY cell cellX cellY' distX distY' with
        | .inl cy => .next cellX cy distX distY'
        | .inr r => .hit r
      else .next cellX cellY' distX distY'

/-- The DDA while-loop `while (count++ < maxDepth)` of `castRay`: the fuel is
the remaining number of iterations; `none` both on a missing cell (`break`)
and on exhausted fuel, as the source returns `undefined` in both cases. -/
def castLoop (e : Entity) (l : Level) (dir : Vec) (deltaX deltaY : ℚ)
    (infX infY : Bool) (stepX stepY : ℚ) :
    Nat → ℚ → ℚ → ℚ → ℚ → Option CastResult
  | 0, _, _, _, _ => none
  | n + 1, cellX, cellY, distX, distY =>
    match castStep e l dir deltaX deltaY infX infY stepX stepY cellX cellY distX distY with
    | .next a b c d => castLoop e l dir deltaX deltaY infX infY stepX stepY n a b c d
    | .hit r => some r
    | .outside => none

/-- The camera-plane offset of a screen column:
`const camera = (2 * column) / width - 1`. -/
def cameraFor (width column : ℚ) : ℚ := 2 * column / width - 1

/-- `castRay(width, column, entity, level, maxDepth = 50)` from
`src/ts/raycaster.ts`: DDA initialisation followed by the traversal loop.
`infX`/`infY` record a zero direction component, for which the source's
`deltaDistance = Math.abs(1 / direction.c)` and the initial side distance
are `Infinity`. -/
def castRay (width column : ℚ) (e : Entity) (l : Level)
    (maxDepth : Nat := 50) : Option CastResult :=
  let camera := cameraFor width column
  let dir : Vec := vadd e.direction (vscale e.camera camera)
  let deltaDistanceX := |1 / dir.x|
  let deltaDistanceY := |1 / dir.y|
  let infX := decide (dir.x = 0)
  let infY := decide (dir.y = 0)
  let cellX : ℚ := (⌊e.position.x⌋ : ℚ)
  let cellY : ℚ := (⌊e.position.y⌋ : ℚ)
  let stepX : ℚ := if dir.x < 0 then -1 else 1
  let distX : ℚ :=
    if dir.x < 0 then (e.position.x - cellX) * deltaDistanceX
    else (cellX + 1 - e.position.x) * deltaDistanceX
  let stepY : ℚ := if dir.y < 0 then -1 else 1
  let distY : ℚ :=
    if dir.y < 0 then (e.position.y - cellY) * deltaDistanceY
    else (cellY + 1 - e.position.y) * deltaDistanceY
  castLoop e l dir deltaDistanceX deltaDistanceY infX infY stepX stepY
    maxDepth cellX cellY distX distY

/-! ### The wall pass of `render` -/

/-- The per-column wall pass of `render` acting on the depth buffer:
`const depthBuffer = new Array(width).fill(50)` followed by, for each column,
`depthBuffer[column] = result.distance` when `castRay` (with its default
`maxDepth = 50`) returns a hit, and no write otherwise. -/
def wallPass (width : Nat) (e : Entity) (l : Level) : List ℚ :=
  (List.range width).foldl
    (fun (db : List ℚ) (col : ℕ) =>
      match castRay (width : ℚ) (col : ℚ) e l 50 with
      | some r => db.set col r.distance
      | none => db)
    (List.replicate width (50 : ℚ))

/-- The destination rectangle of the wall strip drawn for a hit column in
`render`: `wallHeight = Math.abs(Math.floor(height / result.distance))`
followed by the `wallHeight += 2` kludge, and
`wallY = -wallHeight / 2 + height / 2`, drawn 1 pixel wide at `x = column`. -/
structure Rectangle where
  x : ℚ
  y : ℚ
  width : ℚ
  height : ℚ
  deriving DecidableEq, Repr

def wallDest (height : ℚ) (r : CastResult) (column : ℚ) : Rectangle :=
  let wallHeight : ℚ := (|⌊height / r.distance⌋| : ℤ) + 2
  { x := column, y := -wallHeight / 2 + height / 2, width := 1, height := wallHeight }

/-- The wall strips produced by the wall pass of `render`, one per column:
`none` when `castRay` reports no hit (the column is left untouched). -/
def wallStrips (width : Nat) (height : ℚ) (e : Entity) (l : Level) :
    List (Option Rectangle) :=
  (List.range width).map
    (fun (col : ℕ) =>
      (castRay (width : ℚ) (col : ℚ) e l 50).map (wallDest height · (col : ℚ)))

/-! ### The sprite pass -/

/-- `Math.round` on a finite number: rounding half away from zero upward,
`Math.round(x) = ⌊x + 1/2⌋`. -/
def mathRound (x : ℚ) : ℤ := ⌊x + 1 / 2⌋

/-- Reading `depthBuffer[column]` for an arbitrary integer column: a
JavaScript array read out of range yields `undefined`. -/
def depthAt (db : List ℚ) (i : ℤ) : Option ℚ :=
  if 0 ≤ i then db.get? i.toNat else none

/-- The per-column occlusion test of `renderSprite`:
`transformY < depthBuffer[column]`; comparison with an `undefined`
out-of-range read is false. -/
def blocked (db : List ℚ) (transformY : ℚ) (i : ℤ) : Bool :=
  match depthAt db i with
  | some d => decide (transformY < d)
  | none => false

/-- The view-space X coordinate of a sprite in `renderSprite`:
`transformX = invDet * (direction.y * spriteX - direction.x * spriteY)` with
`invDet = 1 / (camera.x * direction.y - direction.x * camera.y)`. -/
def spriteTransformX (e : Entity) (s : Sprite) : ℚ :=
  (1 / (e.camera.x * e.direction.y - e.direction.x * e.camera.y)) *
    (e.direction.y * (s.position.x - e.position.x) -
      e.direction.x * (s.position.y - e.position.y))

/-- The view depth of a sprite in `renderSprite`:
`transformY = invDet * (-camera.y * spriteX + camera.x * spriteY)`. -/
def spriteTransformY (e : Entity) (s : Sprite) : ℚ :=
  (1 / (e.camera.x * e.direction.y - e.direction.x * e.camera.y)) *
    (-e.camera.y * (s.position.x - e.position.x) +
      e.camera.x * (s.position.y - e.position.y))

/-- The projected sprite size (square billboard) of `renderSprite`:
`Math.abs(Math.round((height / transformY) * sprite.scale))` plus the fixed
`+= 2` padding kludge, used for both `spriteWidth` and `spriteHeight`. -/
def spriteDim (height : ℚ) (e : Entity) (s : Sprite) : ℤ :=
  |mathRound (height / spriteTransformY e s * s.scale)| + 2

/-- The sprite's anchor column:
`spriteScreenX = Math.round((width / 2) * (1 + transformX / transformY))`. -/
def spriteScreenX (width : ℚ) (e : Entity) (s : Sprite) : ℤ :=
  mathRound (width / 2 * (1 + spriteTransformX e s / spriteTransformY e s))

/-- The left edge of the sprite's unclipped destination rectangle:
`Math.floor(-spriteWidth / 2 + spriteScreenX)`. -/
def spriteDestX (width height : ℚ) (e : Entity) (s : Sprite) : ℤ :=
  ⌊-(spriteDim height e s : ℚ) / 2 + (spriteScreenX width e s : ℚ)⌋

/-- The visibility and clipping logic of `renderSprite`
(`src/ts/raycaster.ts`): `none` when the sprite is not drawn (behind the
camera, off screen, or fully occluded by the depth buffer), otherwise the
clip rectangle actually drawn to.  Texture-slice selection, tinting and the
final `drawTexture` blit are external collaborators and are not modelled;
whether and where the sprite is drawn is fully decided here.
Alignment flags are modelled from the spec (`sprite-utils.ts` is external):
`isSpriteAlignedTop` and `isSpriteAlignedBottom` read the sprite's alignment
flag. -/
def renderSpriteClip (width height : ℚ) (e : Entity) (db : List ℚ)
    (s : Sprite) : Option Rectangle :=
  let halfHeight := height / 2
  let transformY := spriteTransformY e s
  if transformY ≤ 0 then none
  else
    let dim := spriteDim height e s
    let destX := spriteDestX width height e s
    let destY : ℚ := -(dim : ℚ) / 2 + halfHeight
    if (destX : ℚ) + (dim : ℚ) < 0 ∨ (width : ℚ) ≤ (destX : ℚ) then none
    else
      match (List.range dim.toNat).find?
          (fun (i : ℕ) => blocked db transformY (destX + (i : ℤ))) with
      | none => none
      | some i =>
        let clipX : ℤ := destX + (i : ℤ)
        let clipW : ℤ :=
          match (List.range (dim - (i : ℤ) + 1).toNat).find?
              (fun (j : ℕ) => blocked db transformY (destX + dim - (j : ℤ))) with
          | some j => destX + dim - (j : ℤ) - clipX
          | none => dim - (i : ℤ)
        let clipY : ℚ :=
          if s.alignTop then -(|mathRound (height / transformY)| : ℚ) / 2 + halfHeight
          else if s.alignBottom then
            (|mathRound (height / transformY)| : ℚ) / 2 + halfHeight - (dim : ℚ)
          else destY
        some { x := (clipX : ℚ), y := clipY, width := (clipW : ℚ), height := (dim : ℚ) }

/-! ### The sprite preparation and ordering of `render` -/

/-- The squared Euclidean camera-to-sprite distance computed fresh for every
sprite at the start of the sprite phase of `render`.  The source stores
`Math.sqrt` of this value; the square root is strictly monotone on the
nonnegative reals (`sqrt_le_sqrt_iff_of_pos` below), so ordering sprites by
the stored distance is ordering them by this square, which stays in `ℚ`. -/
def spriteDistSq (e : Entity) (s : Sprite) : ℚ :=
  (e.position.x - s.position.x) * (e.position.x - s.position.x) +
    (e.position.y - s.position.y) * (e.position.y - s.position.y)

/-- The sprite preparation loop of `render`: store the freshly computed
camera distance on every sprite of the level. -/
def prepareSprites (e : Entity) (l : Level) : List Sprite :=
  l.sprites.map (fun s => { s with distance := spriteDistSq e s })

/-- The comparator of `sprites.sort((a, b) => (b.distance || 0) - (a.distance || 0))`:
`a` may stay before `b` exactly when the comparator is nonpositive, i.e. when
`b.distance ≤ a.distance` (every distance was just written, so the `|| 0`
fallback for `undefined` never fires). -/
def spriteBefore (a b : Sprite) : Prop := b.distance ≤ a.distance

instance : DecidableRel spriteBefore :=
  fun a b => inferInstanceAs (Decidable (b.distance ≤ a.distance))

instance : IsTotal Sprite spriteBefore := ⟨fun a b => le_total b.distance a.distance⟩

instance : IsTrans Sprite spriteBefore := ⟨fun _ _ _ hab hbc => le_trans hbc hab⟩

/-- The far-to-near sprite sort of `render`.  `Array.prototype.sort` is
stable, and a stable sort by a total preorder has a unique result, so any
stable sorting algorithm models it; insertion sort is used here. -/
def sortSprites (l : List Sprite) : List Sprite := List.insertionSort spriteBefore l

/-- The draw order of the sprite phase of `render`: sprites are prepared,
sorted far to near, and drawn in order, skipping `active === false`. -/
def drawOrder (e : Entity) (l : Level) : List Sprite :=
  (sortSprites (prepareSprites e l)).filter (fun s => s.active)

/-- The data-model invariant of the spec for door cells:
`percent` ∈ [0, 100]. -/
def validCell : Cell → Bool
  | .door p => decide (0 ≤ p ∧ p ≤ 100)
  | _ => true

def validLevel (l : Level) : Bool := l.data.all (fun row => row.all validCell)

/-! ### Instrumented traversal outcome, distinguishing the two `none` causes -/

/-- The three ways the DDA while-loop of `castRay` can end: a solid hit, a
missing cell (the `break` when `getCell` yields `undefined`), or running out
of DDA steps (`count++ < maxDepth` failing).  The source collapses the last
two into `undefined`; this instrumented copy of the loop keeps them apart. -/
inductive CastOutcome where
  | hit (r : CastResult)
  | outside
  | exhausted
  deriving DecidableEq, Repr

/-- Instrumented copy of `castLoop`: identical traversal, but the outcome
records whether a `none` came from a missing cell or from fuel exhaustion.
On a missing cell the loop stops immediately. -/
def castLoopO (e : Entity) (l : Level) (dir : Vec) (deltaX deltaY : ℚ)
    (infX infY : Bool) (stepX stepY : ℚ) :
    Nat → ℚ → ℚ → ℚ → ℚ → CastOutcome
  | 0, _, _, _, _ => .exhausted
  | n + 1, cellX, cellY, distX, distY =>
    match castStep e l dir deltaX deltaY infX infY stepX stepY cellX cellY distX distY with
    | .next a b c d => castLoopO e l dir deltaX deltaY infX infY stepX stepY n a b c d
    | .hit r => .hit r
    | .outside => .outside

/-- Instrumented copy of `castRay` built on `castLoopO`, with the same DDA
initialisation. -/
def castRayO (width column : ℚ) (e : Entity) (l : Level)
    (maxDepth : Nat := 50) : CastOutcome :=
  let camera := cameraFor width column
  let dir : Vec := vadd e.direction (vscale e.camera camera)
  let deltaDistanceX := |1 / dir.x|
  let deltaDistanceY := |1 / dir.y|
  let infX := decide (dir.x = 0)
  let infY := decide (dir.y = 0)
  let cellX : ℚ := (⌊e.position.x⌋ : ℚ)
  let cellY : ℚ := (⌊e.position.y⌋ : ℚ)
  let stepX : ℚ := if dir.x < 0 then -1 else 1
  let distX : ℚ :=
    if dir.x < 0 then (e.position.x - cellX) * deltaDistanceX
    else (cellX + 1 - e.position.x) * deltaDistanceX
  let stepY : ℚ := if dir.y < 0 then -1 else 1
  let distY : ℚ :=
    if dir.y < 0 then (e.position.y - cellY) * deltaDistanceY
    else (cellY + 1 - e.position.y) * deltaDistanceY
  castLoopO e l dir deltaDistanceX deltaDistanceY infX infY stepX stepY
    maxDepth cellX cellY distX distY

/-- The plain loop agrees with the instrumented loop: a hit gives `some`,
both non-hit outcomes give `none`. -/
theorem castLoop_eq_castLoopO (e : Entity) (l : Level) (dir : Vec)
    (deltaX deltaY : ℚ) (infX infY : Bool) (stepX stepY : ℚ) :
    ∀ (fuel : Nat) (cellX cellY distX distY : ℚ),
      castLoop e l dir deltaX deltaY infX infY stepX stepY fuel cellX cellY distX distY =
        match castLoopO e l dir deltaX deltaY infX infY stepX stepY fuel cellX cellY distX distY with
        | .hit r => some r
        | .outside => none
        | .exhausted => none := by
  intro fuel
  induction fuel with
  | zero => intro cellX cellY distX distY; rfl
  | succ n ih =>
    intro cellX cellY distX distY
    simp only [castLoop, castLoopO]
    rcases h : castStep e l dir deltaX deltaY infX infY stepX stepY cellX cellY distX distY with
      ⟨a, b, c, d⟩ | r | _ <;> simp [h, ih]

/-! ### Concrete fixtures -/

/-- An entity in the middle of cell (1, 1), looking along the positive X
axis. -/
def eDoor : Entity := ⟨⟨3/2, 3/2⟩, ⟨1, 0⟩, ⟨0, 1⟩⟩

/-- A corridor whose first solid cell along the center ray is a door with
`percent = 0`, with a plain wall behind it. -/
def lDoor0 : Level :=
  { data := [[.wall, .wall, .wall, .wall],
             [.wall, .floor, .door 0, .wall],
             [.wall, .wall, .wall, .wall]],
    sprites := [] }

/-- The same corridor with the door at `percent = 100`. -/
def lDoor100 : Level :=
  { data := [[.wall, .wall, .wall, .wall],
             [.wall, .floor, .door 100, .wall],
             [.wall, .wall, .wall, .wall]],
    sprites := [] }

/-- An entity inside a fully open 2×2 level. -/
def eOpen : Entity := ⟨⟨1/2, 1/2⟩, ⟨1, 0⟩, ⟨0, 1⟩⟩

/-- A level with no solid cell at all. -/
def lOpen : Level := { data := [[.floor, .floor], [.floor, .floor]], sprites := [] }

/-! ### Claim theorems -/

/-- C10: `castRay` depends on its `width` and `column` arguments only through
the ratio `column / width`: scaling both by the same positive integer `k`
leaves the result unchanged, since the two arguments only enter through
`camera = 2 * column / width - 1`. -/
theorem castRay_scale_invariant (k : ℕ) (hk : 0 < k) (width column : ℚ)
    (e : Entity) (l : Level) (maxDepth : ℕ) :
    castRay ((k : ℚ) * width) ((k : ℚ) * column) e l maxDepth =
      castRay width column e l maxDepth := by
  have hk' : (k : ℚ) ≠ 0 := Nat.cast_ne_zero.mpr (Nat.pos_iff_ne_zero.mp hk)
  have hcam : cameraFor ((k : ℚ) * width) ((k : ℚ) * column) = cameraFor width column := by
    unfold cameraFor
    rw [show (2 : ℚ) * ((k : ℚ) * column) = (k : ℚ) * (2 * column) by ring,
      mul_div_mul_left _ _ hk']
  simp only [castRay, hcam]

unseal Rat.add Rat.mul Rat.inv Rat.sub in
/-- Witness for C10 at `k = 2`, `width = 2`, `column = 1`. -/
theorem castRay_scale_invariant_witness :
    castRay (((2 : ℕ) : ℚ) * 2) (((2 : ℕ) : ℚ) * 1) eDoor lDoor0 50 =
      castRay 2 1 eDoor lDoor0 50 :=
  castRay_scale_invariant 2 (by decide) 2 1 eDoor lDoor0 50

/-- C8: `castRay` returns the absence of a value exactly in the two non-hit
situations: the traversal reached a grid coordinate with no cell (in which
case `castLoopO` stops immediately with `.outside`), or the `maxDepth` DDA
steps were exhausted without a solid hit (`.exhausted`).  Being a total
function into `Option`, it never raises an error. -/
theorem castRay_none_iff (width column : ℚ) (e : Entity) (l : Level) (maxDepth : ℕ) :
    castRay width column e l maxDepth = none ↔
      castRayO width column e l maxDepth = .outside ∨
        castRayO width column e l maxDepth = .exhausted := by
  have key : castRay width column e l maxDepth =
      match castRayO width column e l maxDepth with
      | .hit r => some r
      | .outside => none
      | .exhausted => none := by
    simp only [castRay, castRayO]
    exact castLoop_eq_castLoopO _ _ _ _ _ _ _ _ _ _ _ _ _ _
  rw [key]
  rcases castRayO width column e l maxDepth with r | _ | _ <;> simp

/-! ### Invariants of a returned hit (C9) -/

/-- The raw X wall fraction is a fractional part, hence in `[0, 1)`. -/
theorem wallFracX_bounds (e : Entity) (dir : Vec) (stepX cx : ℚ) :
    0 ≤ wallFracX e dir stepX cx ∧ wallFracX e dir stepX cx < 1 := by
  have h1 := Int.floor_le (e.position.y + ((cx - e.position.x + (1 - stepX) / 2) / dir.x) * dir.y)
  have h2 := Int.lt_floor_add_one (e.position.y + ((cx - e.position.x + (1 - stepX) / 2) / dir.x) * dir.y)
  simp only [wallFracX]
  constructor <;> linarith

/-- The raw Y wall fraction is a fractional part, hence in `[0, 1)`. -/
theorem wallFracY_bounds (e : Entity) (dir : Vec) (stepY cy : ℚ) :
    0 ≤ wallFracY e dir stepY cy ∧ wallFracY e dir stepY cy < 1 := by
  have h1 := Int.floor_le (e.position.x + ((cy - e.position.y + (1 - stepY) / 2) / dir.y) * dir.x)
  have h2 := Int.lt_floor_add_one (e.position.x + ((cy - e.position.y + (1 - stepY) / 2) / dir.y) * dir.x)
  simp only [wallFracY]
  constructor <;> linarith

/-- Whatever `solidX` returns as a hit keeps the looked-up cell and has a
wall fraction in `[0, 1]` (given the spec's door invariant) and a
nonnegative distance. -/
theorem solidX_inr {e : Entity} {dir : Vec} {δ : ℚ} {ix iy : Bool} {sx : ℚ}
    {cell : Cell} {cx cy dx dy : ℚ} {r : CastResult}
    (hp : ∀ p, cell = Cell.door p → p ≤ 100)
    (h : solidX e dir δ ix iy sx cell cx cy dx dy = Sum.inr r) :
    r.cell = cell ∧ 0 ≤ r.wall ∧ r.wall ≤ 1 ∧ 0 ≤ r.distance := by
  rcases cell with _ | _ | _ | p | _ <;>
    simp only [solidX, isThin, isDoor, doorPercent, Bool.false_eq_true, false_and, true_and,
      if_true, if_false] at h
  case door =>
    split at h
    · cases h
    · split at h
      · cases h
      · next hw =>
        injection h with h
        subst h
        have hp100 : p ≤ 100 := hp p rfl
        have hf := (wallFracX_bounds e dir sx (cx + sx * (1 / 2))).1
        push_neg at hw
        exact ⟨rfl, by dsimp only; linarith, by dsimp only; linarith, abs_nonneg _⟩
  case thinWall =>
    split at h
    · cases h
    · injection h with h
      subst h
      exact ⟨rfl, (wallFracX_bounds e dir sx _).1,
        le_of_lt (wallFracX_bounds e dir sx _).2, abs_nonneg _⟩
  all_goals
    injection h with h
    subst h
    exact ⟨rfl, (wallFracX_bounds e dir sx _).1,
      le_of_lt (wallFracX_bounds e dir sx _).2, abs_nonneg _⟩

/-- Symmetric to `solidX_inr` for Y-axis hits. -/
theorem solidY_inr {e : Entity} {dir : Vec} {δ : ℚ} {ix iy : Bool} {sy : ℚ}
    {cell : Cell} {cx cy dx dy : ℚ} {r : CastResult}
    (hp : ∀ p, cell = Cell.door p → p ≤ 100)
    (h : solidY e dir δ ix iy sy cell cx cy dx dy = Sum.inr r) :
    r.cell = cell ∧ 0 ≤ r.wall ∧ r.wall ≤ 1 ∧ 0 ≤ r.distance := by
  rcases cell with _ | _ | _ | p | _ <;>
    simp only [solidY, isThin, isDoor, doorPercent, Bool.false_eq_true, false_and, true_and,
      if_true, if_false] at h
  case door =>
    split at h
    · cases h
    · split at h
      · cases h
      · next hw =>
        injection h with h
        subst h
        have hp100 : p ≤ 100 := hp p rfl
        have hf := (wallFracY_bounds e dir sy (cy + sy * (1 / 2))).1
        push_neg at hw
        exact ⟨rfl, by dsimp only; linarith, by dsimp only; linarith, abs_nonneg _⟩
  case thinWall =>
    split at h
    · cases h
    · injection h with h
      subst h
      exact ⟨rfl, (wallFracY_bounds e dir sy _).1,
        le_of_lt (wallFracY_bounds e dir sy _).2, abs_nonneg _⟩
  all_goals
    injection h with h
    subst h
    exact ⟨rfl, (wallFracY_bounds e dir sy _).1,
      le_of_lt (wallFracY_bounds e dir sy _).2, abs_nonneg _⟩

/-- A `hit` outcome of one DDA iteration comes from processing a solid cell
looked up in the level. -/
theorem castStep_hit {e : Entity} {l : Level} {dir : Vec} {δx δy : ℚ}
    {ix iy : Bool} {sx sy : ℚ} {cX cY dX dY : ℚ} {r : CastResult}
    (h : castStep e l dir δx δy ix iy sx sy cX cY dX dY = .hit r) :
    ∃ cx cy cell dx dy, getCell l cx cy = some cell ∧ isSolid cell = true ∧
      (solidX e dir δx ix iy sx cell cx cy dx dy = Sum.inr r ∨
        solidY e dir δy ix iy sy cell cx cy dx dy = Sum.inr r) := by
  simp only [castStep] at h
  split at h
  · split at h
    · cases h
    · next cell hg =>
      split at h
      · next hsolid =>
        split at h
        · cases h
        · next r' hs =>
          injection h with h
          subst h
          exact ⟨cX + sx, cY, cell, dX + δx, dY, hg, hsolid, Or.inl hs⟩
      · cases h
  · split at h
    · cases h
    · next cell hg =>
      split at h
      · next hsolid =>
        split at h
        · cases h
        · next r' hs =>
          injection h with h
          subst h
          exact ⟨cX, cY + sy, cell, dX, dY + δy, hg, hsolid, Or.inr hs⟩
      · cases h

/-- A cell resolved by `getCell` on a level satisfying the door invariant
satisfies it itself. -/
theorem getCell_valid {l : Level} {x y : ℚ} {c : Cell}
    (hl : validLevel l = true) (h : getCell l x y = some c) : validCell c = true := by
  unfold getCell at h
  split at h
  · rcases hrow : l.data.get? y.num.toNat with _ | row <;> rw [hrow] at h
    · cases h
    · have hrmem : row ∈ l.data := List.get?_mem hrow
      have hcmem : c ∈ row := List.get?_mem h
      unfold validLevel at hl
      rw [List.all_eq_true] at hl
      have hall := hl row hrmem
      rw [List.all_eq_true] at hall
      exact hall c hcmem
  · cases h

/-- Any result produced by the traversal loop over a level satisfying the
door invariant is a solid cell with wall fraction in `[0, 1]` and
nonnegative distance. -/
theorem castLoop_some {e : Entity} {l : Level} {dir : Vec} {δx δy : ℚ}
    {ix iy : Bool} {sx sy : ℚ} (hl : validLevel l = true) :
    ∀ (fuel : ℕ) (cX cY dX dY : ℚ) (r : CastResult),
      castLoop e l dir δx δy ix iy sx sy fuel cX cY dX dY = some r →
      isSolid r.cell = true ∧ 0 ≤ r.wall ∧ r.wall ≤ 1 ∧ 0 ≤ r.distance := by
  intro fuel
  induction fuel with
  | zero => intro _ _ _ _ r h; cases h
  | succ n ih =>
    intro cX cY dX dY r h
    rw [castLoop] at h
    rcases hstep : castStep e l dir δx δy ix iy sx sy cX cY dX dY with ⟨a, b, c, d⟩ | r' | _ <;>
      rw [hstep] at h
    · exact ih a b c d r h
    · injection h with h
      subst h
      obtain ⟨cx, cy, cell, dx, dy, hg, hsolid, hxy⟩ := castStep_hit hstep
      have hp : ∀ p, cell = Cell.door p → p ≤ 100 := by
        intro p hcell
        subst hcell
        have hv := getCell_valid hl hg
        simp only [validCell, decide_eq_true_eq] at hv
        exact hv.2
      rcases hxy with hs | hs
      · obtain ⟨hc, hw0, hw1, hd⟩ := solidX_inr hp hs
        refine ⟨?_, hw0, hw1, hd⟩
        rw [hc]
        exact hsolid
      · obtain ⟨hc, hw0, hw1, hd⟩ := solidY_inr hp hs
        refine ⟨?_, hw0, hw1, hd⟩
        rw [hc]
        exact hsolid
    · cases h

/-- C9: whenever `castRay` returns a result, on any level satisfying the
spec's door invariant (`percent` ∈ [0, 100]), the returned cell is solid,
the wall fraction lies in `[0, 1]`, and the distance is nonnegative. -/
theorem castRay_some_props (width column : ℚ) (e : Entity) (l : Level)
    (maxDepth : ℕ) (hl : validLevel l = true) (r : CastResult)
    (h : castRay width column e l maxDepth = some r) :
    isSolid r.cell = true ∧ 0 ≤ r.wall ∧ r.wall ≤ 1 ∧ 0 ≤ r.distance := by
  simp only [castRay] at h
  exact castLoop_some hl maxDepth _ _ _ _ r h

unseal Rat.add Rat.mul Rat.inv Rat.sub in
/-- Witness for C9: the hit on the `percent = 100` door of `lDoor100`. -/
theorem castRay_some_props_witness :
    isSolid (Cell.door 100) = true ∧ 0 ≤ (1/2 : ℚ) ∧ (1/2 : ℚ) ≤ 1 ∧ 0 ≤ (1 : ℚ) :=
  castRay_some_props 2 1 eDoor lDoor100 50 (by decide)
    ⟨5/2, 1, .door 100, .west, 1/2, 1⟩ (by decide)

/-! ### Door handling (C5, C1, C2) -/

/-- C5: when a ray strikes a door cell (on either axis, given the thin-wall
center test passes), if the computed raw wall fraction exceeds
`percent / 100` the traversal coordinate is reverted to its pre-adjustment
value (doors are thin, so the half-cell adjustment is undone exactly:
the continue state carries `cx`, not `cx + step/2`) and the loop continues;
otherwise the door is hit and the returned wall fraction is
`percent / 100 - wall`. -/
theorem castRay_door_handling (e : Entity) (dir : Vec) (δ : ℚ) (ix iy : Bool)
    (s p cx cy dx dy : ℚ) :
    (¬(ix = false ∧ iy = false ∧ dx - δ * (1 / 2) > dy) →
      (1 / 100 * p < wallFracX e dir s (cx + s * (1 / 2)) →
        solidX e dir δ ix iy s (.door p) cx cy dx dy = Sum.inl cx) ∧
      (wallFracX e dir s (cx + s * (1 / 2)) ≤ 1 / 100 * p →
        solidX e dir δ ix iy s (.door p) cx cy dx dy =
          Sum.inr ⟨cx + s * (1 / 2), cy, .door p, sideX s,
            1 / 100 * p - wallFracX e dir s (cx + s * (1 / 2)),
            perpDistX e dir s (cx + s * (1 / 2))⟩)) ∧
    (¬(ix = false ∧ iy = false ∧ dy - δ * (1 / 2) > dx) →
      (1 / 100 * p < wallFracY e dir s (cy + s * (1 / 2)) →
        solidY e dir δ ix iy s (.door p) cx cy dx dy = Sum.inl cy) ∧
      (wallFracY e dir s (cy + s * (1 / 2)) ≤ 1 / 100 * p →
        solidY e dir δ ix iy s (.door p) cx cy dx dy =
          Sum.inr ⟨cx, cy + s * (1 / 2), .door p, sideY s,
            1 / 100 * p - wallFracY e dir s (cy + s * (1 / 2)),
            perpDistY e dir s (cy + s * (1 / 2))⟩)) := by
  constructor
  · intro hmiss
    constructor
    · intro hw
      simp only [solidX, isThin, isDoor, doorPercent, true_and, if_true]
      rw [if_neg hmiss, if_pos hw]
      congr 1
      ring
    · intro hw
      simp only [solidX, isThin, isDoor, doorPercent, true_and, if_true]
      rw [if_neg hmiss, if_neg (not_lt.mpr hw)]
  · intro hmiss
    constructor
    · intro hw
      simp only [solidY, isThin, isDoor, doorPercent, true_and, if_true]
      rw [if_neg hmiss, if_pos hw]
      congr 1
      ring
    · intro hw
      simp only [solidY, isThin, isDoor, doorPercent, true_and, if_true]
      rw [if_neg hmiss, if_neg (not_lt.mpr hw)]

unseal Rat.add Rat.mul Rat.inv Rat.sub in
/-- Witness for C5: a door at 10 percent, struck at raw fraction `1/2`,
is passed through with the traversal coordinate reverted to `2`. -/
theorem castRay_door_handling_witness :
    solidX eDoor ⟨1, 0⟩ 1 false true 1 (.door 10) 2 1 (3/2) 0 = Sum.inl 2 :=
  ((castRay_door_handling eDoor ⟨1, 0⟩ 1 false true 1 10 2 1 (3/2) 0).1
    (by simp)).1 (by decide)

unseal Rat.add Rat.mul Rat.inv Rat.sub in
/-- C1 counterexample: the first solid cell struck by the center column's ray
is the `percent = 0` door of `lDoor0` at grid (2, 1); `castRay` does not
return a hit on it (with `maxDepth = 1` the step reaching the door yields no
result) but continues past it and returns the wall behind at (3, 1). -/
theorem door_percent_zero_counterexample :
    getCell lDoor0 2 1 = some (Cell.door 0) ∧
      castRay 2 1 eDoor lDoor0 50 = some ⟨3, 1, Cell.wall, Face.west, 1/2, 3/2⟩ ∧
      castRay 2 1 eDoor lDoor0 1 = none := by decide

/-- C1 (amended): a door with `percent = 0` behaves as fully open, not fully
closed: whenever the raw wall fraction is positive the ray passes through
(the traversal coordinate reverting to its pre-adjustment value), and the
door is hit only when the raw fraction is exactly `0`, in which case the
returned wall fraction is `0`. -/
theorem door_percent_zero_passthrough (e : Entity) (dir : Vec) (δ : ℚ) (ix iy : Bool)
    (s cx cy dx dy : ℚ) :
    (¬(ix = false ∧ iy = false ∧ dx - δ * (1 / 2) > dy) →
      (0 < wallFracX e dir s (cx + s * (1 / 2)) →
        solidX e dir δ ix iy s (.door 0) cx cy dx dy = Sum.inl cx) ∧
      (wallFracX e dir s (cx + s * (1 / 2)) = 0 →
        solidX e dir δ ix iy s (.door 0) cx cy dx dy =
          Sum.inr ⟨cx + s * (1 / 2), cy, .door 0, sideX s, 0,
            perpDistX e dir s (cx + s * (1 / 2))⟩)) ∧
    (¬(ix = false ∧ iy = false ∧ dy - δ * (1 / 2) > dx) →
      (0 < wallFracY e dir s (cy + s * (1 / 2)) →
        solidY e dir δ ix iy s (.door 0) cx cy dx dy = Sum.inl cy) ∧
      (wallFracY e dir s (cy + s * (1 / 2)) = 0 →
        solidY e dir δ ix iy s (.door 0) cx cy dx dy =
          Sum.inr ⟨cx, cy + s * (1 / 2), .door 0, sideY s, 0,
            perpDistY e dir s (cy + s * (1 / 2))⟩)) := by
  constructor
  · intro hmiss
    constructor
    · intro hw
      simp only [solidX, isThin, isDoor, doorPercent, true_and, if_true]
      rw [if_neg hmiss, if_pos (by simpa using hw)]
      congr 1
      ring
    · intro hw
      simp only [solidX, isThin, isDoor, doorPercent, true_and, if_true]
      rw [if_neg hmiss, if_neg (by rw [hw]; norm_num)]
      rw [hw]
      norm_num
  · intro hmiss
    constructor
    · intro hw
      simp only [solidY, isThin, isDoor, doorPercent, true_and, if_true]
      rw [if_neg hmiss, if_pos (by simpa using hw)]
      congr 1
      ring
    · intro hw
      simp only [solidY, isThin, isDoor, doorPercent, true_and, if_true]
      rw [if_neg hmiss, if_neg (by rw [hw]; norm_num)]
      rw [hw]
      norm_num

unseal Rat.add Rat.mul Rat.inv Rat.sub in
/-- Witness for the amended C1: a `percent = 0` door struck on the Y axis at
raw fraction `1/2 > 0` is passed through, coordinate reverted to `2`. -/
theorem door_percent_zero_passthrough_witness :
    solidY eDoor ⟨0, 1⟩ 1 true false 1 (.door 0) 1 2 0 (3/2) = Sum.inl 2 :=
  ((door_percent_zero_passthrough eDoor ⟨0, 1⟩ 1 true false 1 1 2 0 (3/2)).2
    (by simp)).1 (by decide)

unseal Rat.add Rat.mul Rat.inv Rat.sub in
/-- C2 counterexample: the center column's ray strikes the `percent = 100`
door of `lDoor100` with raw wall fraction `1/2 ≤ 1`, yet `castRay` returns a
hit on that very door (at the center plane, distance 1) instead of passing
through to what lies beyond. -/
theorem door_percent_hundred_counterexample :
    castRay 2 1 eDoor lDoor100 50 =
      some ⟨5/2, 1, Cell.door 100, Face.west, 1/2, 1⟩ := by decide

/-- C2 (amended): a door with `percent = 100` behaves as fully closed:
whenever the ray reaches the door's center plane (the thin-wall test passes)
`castRay` hits the door itself, with wall fraction `1 - wall`; it never
passes through. -/
theorem door_percent_hundred_blocks (e : Entity) (dir : Vec) (δ : ℚ) (ix iy : Bool)
    (s cx cy dx dy : ℚ) :
    (¬(ix = false ∧ iy = false ∧ dx - δ * (1 / 2) > dy) →
      solidX e dir δ ix iy s (.door 100) cx cy dx dy =
        Sum.inr ⟨cx + s * (1 / 2), cy, .door 100, sideX s,
          1 - wallFracX e dir s (cx + s * (1 / 2)),
          perpDistX e dir s (cx + s * (1 / 2))⟩) ∧
    (¬(ix = false ∧ iy = false ∧ dy - δ * (1 / 2) > dx) →
      solidY e dir δ ix iy s (.door 100) cx cy dx dy =
        Sum.inr ⟨cx, cy + s * (1 / 2), .door 100, sideY s,
          1 - wallFracY e dir s (cy + s * (1 / 2)),
          perpDistY e dir s (cy + s * (1 / 2))⟩) := by
  constructor
  · intro hmiss
    have hlt := (wallFracX_bounds e dir s (cx + s * (1 / 2))).2
    simp only [solidX, isThin, isDoor, doorPercent, true_and, if_true]
    rw [if_neg hmiss, if_neg (by push_neg; linarith)]
    norm_num
  · intro hmiss
    have hlt := (wallFracY_bounds e dir s (cy + s * (1 / 2))).2
    simp only [solidY, isThin, isDoor, doorPercent, true_and, if_true]
    rw [if_neg hmiss, if_neg (by push_neg; linarith)]
    norm_num

unseal Rat.add Rat.mul Rat.inv Rat.sub in
/-- Witness for the amended C2: the `percent = 100` door struck at raw
fraction `1/2` is hit with wall `1 - 1/2`. -/
theorem door_percent_hundred_blocks_witness :
    solidX eDoor ⟨1, 0⟩ 1 false true 1 (.door 100) 2 1 (3/2) 0 =
      Sum.inr ⟨5/2, 1, .door 100, sideX 1, 1 - wallFracX eDoor ⟨1, 0⟩ 1 (5/2),
        perpDistX eDoor ⟨1, 0⟩ 1 (5/2)⟩ := by
  have h := (door_percent_hundred_blocks eDoor ⟨1, 0⟩ 1 false true 1 2 1 (3/2) 0).1 (by simp)
  rw [h]
  norm_num

/-! ### Depth buffer round trip (C3) and wall strip geometry (C6) -/

/-- A column whose ray reports no hit is never written by the wall pass. -/
theorem wallPass_foldl_untouched (width : ℕ) (e : Entity) (l : Level) (col : ℕ)
    (h : castRay (width : ℚ) (col : ℚ) e l 50 = none) :
    ∀ (cols : List ℕ) (db : List ℚ),
      (cols.foldl
        (fun (db : List ℚ) (c : ℕ) =>
          match castRay (width : ℚ) (c : ℚ) e l 50 with
          | some r => db.set c r.distance
          | none => db)
        db).get? col = db.get? col := by
  intro cols
  induction cols with
  | nil => intro db; rfl
  | cons c cs ih =>
    intro db
    simp only [List.foldl_cons]
    rcases hc : castRay (width : ℚ) (c : ℚ) e l 50 with _ | r
    · exact ih db
    · rw [ih (db.set c r.distance)]
      have hne : c ≠ col := by
        intro hcc
        subst hcc
        rw [hc] at h
        cases h
      rw [List.get?_eq_getElem?, List.get?_eq_getElem?]
      exact List.getElem?_set_ne hne

/-- C3: the wall pass starts from a depth buffer filled with the sentinel 50
(matching the default `maxDepth = 50`) and writes a column only when
`castRay` reports a hit there; on a level where no column's ray hits
within `maxDepth`, the buffer still holds the sentinel at every column after
the pass. -/
theorem wallPass_sentinel (width : ℕ) (e : Entity) (l : Level)
    (h : ∀ col : ℕ, col < width → castRay (width : ℚ) (col : ℚ) e l 50 = none) :
    wallPass width e l = List.replicate width (50 : ℚ) ∧
      ∀ col : ℕ, col < width → (wallPass width e l).get? col = some 50 := by
  have hkey : ∀ (cols : List ℕ) (db : List ℚ),
      (∀ c ∈ cols, castRay (width : ℚ) (c : ℚ) e l 50 = none) →
      cols.foldl
        (fun (db : List ℚ) (c : ℕ) =>
          match castRay (width : ℚ) (c : ℚ) e l 50 with
          | some r => db.set c r.distance
          | none => db)
        db = db := by
    intro cols
    induction cols with
    | nil => intro db _; rfl
    | cons c cs ih =>
      intro db hall
      simp only [List.foldl_cons]
      rw [hall c (List.mem_cons_self c cs)]
      exact ih db (fun c' hc' => hall c' (List.mem_cons_of_mem c hc'))
  have h1 : wallPass width e l = List.replicate width (50 : ℚ) := by
    unfold wallPass
    exact hkey (List.range width) _ (fun c hc => h c (List.mem_range.mp hc))
  refine ⟨h1, fun col hcol => ?_⟩
  rw [h1, List.get?_eq_getElem?, List.getElem?_replicate, if_pos hcol]

unseal Rat.add Rat.mul Rat.inv Rat.sub in
/-- Witness for C3: on the all-open 2×2 level, both columns miss and the
depth buffer keeps the sentinel. -/
theorem wallPass_sentinel_witness : wallPass 2 eOpen lOpen = List.replicate 2 (50 : ℚ) :=
  (wallPass_sentinel 2 eOpen lOpen (by decide)).1

unseal Rat.add Rat.mul Rat.inv Rat.sub in
/-- C6 counterexample: at screen height 200 and hit distance `3/2`, the wall
pass draws a strip of height `|⌊200 / (3/2)⌋| + 2 = 135`, which differs from
the claimed `|screenHeight / distance| = 400/3`. -/
theorem wallHeight_counterexample :
    castRay 2 1 eDoor lDoor0 50 = some ⟨3, 1, Cell.wall, Face.west, 1/2, 3/2⟩ ∧
      (wallDest 200 ⟨3, 1, Cell.wall, Face.west, 1/2, 3/2⟩ 1).height = 135 ∧
      (135 : ℚ) ≠ |(200 : ℚ) / (3/2)| := by decide

/-- C6 (amended): for every column whose cast returns a hit, the wall pass
draws a 1-pixel-wide strip at that column whose height is
`|⌊screenHeight / distance⌋| + 2` (the floor comes from `Math.floor`, the
`+ 2` from the seam kludge), vertically centered on the horizon:
`y = -wallHeight / 2 + screenHeight / 2`. -/
theorem wallStrip_geometry (width : ℕ) (height : ℚ) (e : Entity) (l : Level)
    (col : ℕ) (r : CastResult) (hcol : col < width)
    (h : castRay (width : ℚ) (col : ℚ) e l 50 = some r) :
    (wallStrips width height e l).get? col = some (some (wallDest height r (col : ℚ))) ∧
      (wallDest height r (col : ℚ)).height = ((|⌊height / r.distance⌋| : ℤ) : ℚ) + 2 ∧
      (wallDest height r (col : ℚ)).y =
        -(wallDest height r (col : ℚ)).height / 2 + height / 2 ∧
      (wallDest height r (col : ℚ)).x = (col : ℚ) ∧
      (wallDest height r (col : ℚ)).width = 1 := by
  refine ⟨?_, rfl, rfl, rfl, rfl⟩
  unfold wallStrips
  rw [List.get?_eq_getElem?, List.getElem?_map, List.getElem?_range hcol]
  simp [h]

unseal Rat.add Rat.mul Rat.inv Rat.sub in
/-- Witness for the amended C6 at the concrete hit of `lDoor0`. -/
theorem wallStrip_geometry_witness :
    (wallStrips 2 200 eDoor lDoor0).get? 1 =
        some (some (wallDest 200 ⟨3, 1, Cell.wall, Face.west, 1/2, 3/2⟩ (1 : ℚ))) ∧
      (wallDest 200 ⟨3, 1, Cell.wall, Face.west, 1/2, 3/2⟩ ((1 : ℕ) : ℚ)).height =
        ((|⌊(200 : ℚ) / (3/2)⌋| : ℤ) : ℚ) + 2 ∧
      (wallDest 200 ⟨3, 1, Cell.wall, Face.west, 1/2, 3/2⟩ ((1 : ℕ) : ℚ)).y =
        -(wallDest 200 ⟨3, 1, Cell.wall, Face.west, 1/2, 3/2⟩ ((1 : ℕ) : ℚ)).height / 2 + 200 / 2 ∧
      (wallDest 200 ⟨3, 1, Cell.wall, Face.west, 1/2, 3/2⟩ ((1 : ℕ) : ℚ)).x = ((1 : ℕ) : ℚ) ∧
      (wallDest 200 ⟨3, 1, Cell.wall, Face.west, 1/2, 3/2⟩ ((1 : ℕ) : ℚ)).width = 1 := by
  have := wallStrip_geometry 2 200 eDoor lDoor0 1 ⟨3, 1, Cell.wall, Face.west, 1/2, 3/2⟩
    (by decide) (by decide)
  simpa using this

/-! ### Sprite skipping (C4) and sprite ordering (C7) -/

/-- On an all-zero depth buffer, no column passes the occlusion test for a
sprite with positive view depth. -/
theorem blocked_replicate_zero (n : ℕ) (tY : ℚ) (i : ℤ) (h : 0 < tY) :
    blocked (List.replicate n (0 : ℚ)) tY i = false := by
  unfold blocked depthAt
  split
  · next d heq =>
    have hd : d = 0 := by
      split at heq
      · rw [List.get?_eq_getElem?, List.getElem?_replicate] at heq
        split at heq
        · injection heq with heq
          exact heq.symm
        · cases heq
      · cases heq
    subst hd
    exact decide_eq_false (not_lt.mpr (le_of_lt h))
  · rfl

/-- C4: `renderSprite` draws nothing when the sprite's view depth
`transformY` is nonpositive (behind the camera), and when no destination
column's depth-buffer entry exceeds `transformY` (fully occluded); in
particular an all-zero depth buffer suppresses every sprite with positive
view depth. -/
theorem renderSprite_skip (width height : ℚ) (e : Entity) (s : Sprite) :
    (∀ db : List ℚ, spriteTransformY e s ≤ 0 →
      renderSpriteClip width height e db s = none) ∧
    (∀ db : List ℚ,
      (∀ col : ℤ, spriteDestX width height e s ≤ col →
        col < spriteDestX width height e s + spriteDim height e s →
        blocked db (spriteTransformY e s) col = false) →
      renderSpriteClip width height e db s = none) ∧
    (∀ n : ℕ, 0 < spriteTransformY e s →
      renderSpriteClip width height e (List.replicate n (0 : ℚ)) s = none) := by
  have key : ∀ db : List ℚ,
      (∀ col : ℤ, spriteDestX width height e s ≤ col →
        col < spriteDestX width height e s + spriteDim height e s →
        blocked db (spriteTransformY e s) col = false) →
      renderSpriteClip width height e db s = none := by
    intro db hb
    simp only [renderSpriteClip]
    split
    · rfl
    · split
      · rfl
      · have hdim : (0 : ℤ) ≤ spriteDim height e s := by
          have := abs_nonneg (mathRound (height / spriteTransformY e s * s.scale))
          unfold spriteDim
          omega
        have hfind : (List.range (spriteDim height e s).toNat).find?
            (fun (i : ℕ) => blocked db (spriteTransformY e s)
              (spriteDestX width height e s + (i : ℤ))) = none := by
          rw [List.find?_eq_none]
          intro i hi
          rw [List.mem_range] at hi
          have hi' : (i : ℤ) < spriteDim height e s := by omega
          rw [hb _ (le_add_of_nonneg_right (Int.ofNat_nonneg i)) (by linarith)]
          exact Bool.false_ne_true
        rw [hfind]
  refine ⟨fun db h => ?_, key, fun n h => key _ (fun col _ _ => blocked_replicate_zero n _ col h)⟩
  simp only [renderSpriteClip]
  rw [if_pos h]

/-- An entity at the origin looking along positive X with the standard
camera plane. -/
def eSprite : Entity := ⟨⟨0, 0⟩, ⟨1, 0⟩, ⟨0, 1⟩⟩

/-- A sprite five cells ahead of `eSprite`. -/
def sSprite : Sprite := ⟨⟨5, 0⟩, 1, false, false, true, 0⟩

unseal Rat.add Rat.mul Rat.inv Rat.sub in
/-- Witness for C4: view depth 5 > 0 against an all-zero depth buffer,
nothing is drawn. -/
theorem renderSprite_skip_witness :
    renderSpriteClip 4 4 eSprite (List.replicate 4 (0 : ℚ)) sSprite = none :=
  (renderSprite_skip 4 4 eSprite sSprite).2.2 4 (by decide)

/-- `Math.sqrt` is monotone (and strictly so) on nonnegative arguments, so
ordering by the stored `Math.sqrt` distance coincides with ordering by the
squared distance `spriteDistSq` kept in the model. -/
theorem sqrt_order_iff (a b : ℚ) (hb : 0 ≤ b) :
    Real.sqrt (a : ℝ) ≤ Real.sqrt (b : ℝ) ↔ a ≤ b := by
  rw [Real.sqrt_le_sqrt_iff (by exact_mod_cast hb)]
  exact Rat.cast_le

/-- Three active sprites at Euclidean distances 10, 5 and 15 from
`eSprite`. -/
def lSort : Level :=
  { data := [],
    sprites := [⟨⟨10, 0⟩, 1, false, false, true, 0⟩,
                ⟨⟨5, 0⟩, 1, false, false, true, 0⟩,
                ⟨⟨15, 0⟩, 1, false, false, true, 0⟩] }

unseal Rat.add Rat.mul Rat.inv Rat.sub in
/-- C7: the sprite phase of `render` draws sprites in descending order of
the freshly computed camera distance: every drawn pair is ordered
far-to-near (`spriteBefore`), and for the three sprites of `lSort` at
Euclidean distances {10, 5, 15} (squared: {100, 25, 225}) the produced draw
order is {15, 10, 5}. -/
theorem render_sprite_order :
    (∀ (e : Entity) (l : Level), List.Pairwise spriteBefore (drawOrder e l)) ∧
      (drawOrder eSprite lSort).map (fun s => s.position.x) = [15, 10, 5] ∧
      (drawOrder eSprite lSort).map (fun s => s.distance) = [225, 100, 25] := by
  refine ⟨fun e l => ?_, by decide, by decide⟩
  have hs : List.Sorted spriteBefore (sortSprites (prepareSprites e l)) :=
    List.sorted_insertionSort spriteBefore (prepareSprites e l)
  exact List.Pairwise.sublist (List.filter_sublist _) hs

end RC
